import Mathlib

/-!
Verification development for the font-engine repository (a TrueType-style
font loader, outline assembler and hinting bytecode interpreter written in
Rust).  The Rust sources are embedded shallowly:

* machine integers (`u8`, `u16`, `u32`, `i16`, `i32`, `usize`) are modelled
  as `Nat`/`Int` with explicit two's-complement wrapping where the source
  wraps (release-mode semantics); a Rust `panic!`, a failed `assert!`, an
  out-of-bounds index or a division by zero is modelled as the `crash`
  outcome of an `Except`/`Option` result;
* `f32`-valued quantities (the graphics-state vectors and scalar state of
  the interpreter, assembler point coordinates) are modelled as `ℚ`; the
  concrete values relevant to any claim are small dyadic rationals on which
  `f32` arithmetic is exact.  The single genuinely irrational operation,
  the `sqrt` inside `Vector::len`, is approximated (see `sqrtQ`); no claim
  depends on a value that flows through it;
* while-loops become structural recursion on an explicit fuel argument;
  every wrapper passes fuel strictly larger than the number of iterations
  the loop can perform, so fuel exhaustion is unreachable there.
-/

/-! ## Two's-complement machine-integer helpers -/

/-- Interpret a `u32` bit pattern (a `Nat` below `2^32`) as a signed `i32`. -/
def toI32 (n : Nat) : Int :=
  let m := n % 4294967296
  if m < 2147483648 then (m : Int) else (m : Int) - 4294967296

/-- Wrap an unbounded integer into the signed `i32` range (release-mode
two's-complement wrapping). -/
def wrapI32 (z : Int) : Int :=
  ((z + 2147483648) % 4294967296) - 2147483648

/-- The `u32` bit pattern of a signed value (`as u32` on an `i32`). -/
def toU32 (z : Int) : Nat :=
  (z % 4294967296).toNat

/-- Wrap a `Nat` into `u32` range (release-mode `u32` arithmetic). -/
def wrapU32 (n : Nat) : Nat := n % 4294967296

/-- Decode a big-endian `i16` from two bytes (`(hi as u16) << 8 | lo`,
then reinterpreted signed). -/
def toI16 (hi lo : Nat) : Int :=
  let v := (hi % 256) * 256 + lo % 256
  if v < 32768 then (v : Int) else (v : Int) - 65536

/-! ## `src/numerics.rs`: the `F26d6` fixed-point type

`F26d6` is a newtype over `i32`; we carry the raw `i32` payload as an `Int`
(always kept in `i32` range by the operations). -/

namespace F26d6

/-- `From<i32> for F26d6`: `F26d6(v << 6)`. -/
def fromI32 (v : Int) : Int := wrapI32 (v * 64)

/-- `F26d6::abs`: `F26d6(self.0.abs())` (on `i32::MIN`, release mode wraps). -/
def abs (v : Int) : Int := wrapI32 |v|

/-- `F26d6::floor`: `F26d6(self.0 & 0xffff_ffc0)`.  Clearing the six low
bits of a two's-complement word is subtraction of the nonnegative
remainder modulo 64. -/
def floor (v : Int) : Int := v - v % 64

/-- `F26d6::ceil`: the source uses the same mask as `floor`,
`F26d6(self.0 & 0xffff_ffc0)`. -/
def ceil (v : Int) : Int := v - v % 64

/-- `Add for F26d6`: `F26d6(self.0 + othr.0)`. -/
def add (a b : Int) : Int := wrapI32 (a + b)

/-- `Sub for F26d6`: `F26d6(self.0 - othr.0)`. -/
def sub (a b : Int) : Int := wrapI32 (a - b)

/-- `Mul for F26d6`: `F26d6(self.0 * othr.0)` (no radix adjustment in the
source). -/
def mul (a b : Int) : Int := wrapI32 (a * b)

/-- `Neg for F26d6`: `F26d6(-self.0)`. -/
def neg (a : Int) : Int := wrapI32 (-a)

end F26d6

/-! ## Byte-reader primitives (`byteorder` big-endian reads over a stream)

A reader is a byte list plus a cursor.  A short read (an `io::Error` in the
source) and a Rust panic are both modelled as `Option.none`: neither is a
successful parse. -/

/-- `read_u8`. -/
def readU8 (s : List Nat) (pos : Nat) : Option (Nat × Nat) :=
  if pos < s.length then some (s.getD pos 0, pos + 1) else Option.none

/-- `read_u16::<BigEndian>`. -/
def readU16 (s : List Nat) (pos : Nat) : Option (Nat × Nat) :=
  match readU8 s pos with
  | Option.none => Option.none
  | some (hi, p1) =>
    match readU8 s p1 with
    | Option.none => Option.none
    | some (lo, p2) => some ((hi % 256) * 256 + lo % 256, p2)

/-- `read_i16::<BigEndian>`. -/
def readI16 (s : List Nat) (pos : Nat) : Option (Int × Nat) :=
  match readU8 s pos with
  | Option.none => Option.none
  | some (hi, p1) =>
    match readU8 s p1 with
    | Option.none => Option.none
    | some (lo, p2) => some (toI16 hi lo, p2)

/-- `read_exact` into a buffer of `n` bytes. -/
def readBytes (s : List Nat) (pos n : Nat) : Option (List Nat × Nat) :=
  if pos + n ≤ s.length then some ((s.drop pos).take n, pos + n) else Option.none

/-- A run of `k` big-endian `u16` reads (the `end_points_of_contours` loop). -/
def readU16s (s : List Nat) : Nat → Nat → Option (List Nat × Nat)
  | 0, pos => some ([], pos)
  | k + 1, pos =>
    match readU16 s pos with
    | Option.none => Option.none
    | some (v, p1) =>
      match readU16s s k p1 with
      | Option.none => Option.none
      | some (vs, p2) => some (v :: vs, p2)

/-! ## `src/truetype_loader/glyph_data_table.rs` -/

/-- `GlyphPoint`: the decoded per-point record.  `flag` is the raw flag
byte (`GlyphPointFlags` declares every bit, so `from_bits_truncate` keeps
the byte unchanged). -/
structure GlyphPoint where
  on_curve : Bool
  x : Int
  y : Int
  flag : Nat
deriving DecidableEq

/-- `Transformation` for composite-glyph components (raw `F2dot14` payloads). -/
inductive Transformation where
  | uniform (v : Int)
  | xy (a b : Int)
  | mat2x2 (xscale scale01 scale10 yscale : Int)
deriving DecidableEq

/-- `ComponentGlyphDescription`. -/
structure ComponentGlyphDescription where
  glyph_index : Nat
  arg1 : Nat
  arg2 : Nat
  transform : Transformation
  use_metrics : Bool
deriving DecidableEq

/-- `GlyphDescription`. -/
inductive GlyphDescription where
  | none
  | simple (num_contours : Nat) (x_min y_min x_max y_max : Int)
      (end_points_of_contours : List Nat) (instructions : List Nat)
      (points : List GlyphPoint)
  | composite (components : List ComponentGlyphDescription) (instructions : List Nat)
deriving DecidableEq

/-- One flag byte's inner `for _ in 0..repeat_count` loop: push `rc` copies
of the point, breaking as soon as the point count reaches `n`
(`points.push(...); if points.len() >= n { break; }`). -/
def pushRepeat (flag : Nat) (n : Nat) : Nat → List GlyphPoint → List GlyphPoint
  | 0, acc => acc
  | rc + 1, acc =>
    let acc1 := acc ++ [⟨flag &&& 1 ≠ 0, 0, 0, flag⟩]
    if n ≤ acc1.length then acc1 else pushRepeat flag n rc acc1

/-- The flag-run decoding loop (`while i < data.len() { ... }`) of
`GlyphDescription::from_binary`.  `n` is the point-count guess
`epoc[epoc.len()-1]+1`; the loop breaks once `n` points are pushed.  The
repeat-count byte is read without a bounds check in the source (a panic,
modelled as `none`); `v + 1` on the `u8` repeat count wraps.  Fuel is
structural; callers pass `data.length + 1`, which the loop (advancing `i`
by at least one per iteration) can never exhaust. -/
def decodeFlags (data : List Nat) (n : Nat) : Nat → Nat → List GlyphPoint →
    Option (List GlyphPoint × Nat)
  | 0, i, acc => if i < data.length then Option.none else some (acc, i)
  | fuel + 1, i, acc =>
    if i < data.length then
      let d0 := data.getD i 0
      if d0 &&& 8 ≠ 0 then
        if i + 1 < data.length then
          let rc := (data.getD (i + 1) 0 + 1) % 256
          let acc1 := pushRepeat d0 n rc acc
          if n ≤ acc1.length then some (acc1, i + 2)
          else decodeFlags data n fuel (i + 2) acc1
        else Option.none
      else
        let acc1 := pushRepeat d0 n 1 acc
        if n ≤ acc1.length then some (acc1, i + 1)
        else decodeFlags data n fuel (i + 1) acc1
    else some (acc, i)

/-- Analysis helper (not a source function): the total number of point
records the flag stream describes, with no cap.  Used only to state the
side condition "the flag data supplies enough points" in the amended C1. -/
def flagSupply (data : List Nat) : Nat → Nat → Option Nat
  | 0, i => if i < data.length then Option.none else some 0
  | fuel + 1, i =>
    if i < data.length then
      let d0 := data.getD i 0
      if d0 &&& 8 ≠ 0 then
        if i + 1 < data.length then
          (flagSupply data fuel (i + 2)).map
            fun t => (data.getD (i + 1) 0 + 1) % 256 + t
        else Option.none
      else (flagSupply data fuel (i + 1)).map fun t => 1 + t
    else some 0

/-- `load_vec`: decode one delta-encoded coordinate.  Returns the updated
running total (which is also the value written to the point) and the new
stream index.  The short branch is a plain (wrapping) add of the signed
byte; the long branch is `wrapping_add` of the sign-extended big-endian
word followed by `assert!(last.abs() < 30000)`; the short=false/same=true
branch consumes nothing and repeats the total. -/
def loadVec (data : List Nat) (i : Nat) (last : Int) (short_vec sameorsign : Bool) :
    Option (Int × Nat) :=
  if short_vec then
    if i < data.length then
      some (wrapI32 (last + (data.getD i 0 : Int) * (if sameorsign then 1 else -1)), i + 1)
    else Option.none
  else if sameorsign = false then
    if i + 1 < data.length then
      let l2 := wrapI32 (last + toI16 (data.getD i 0) (data.getD (i + 1) 0))
      if |l2| < 30000 then some (l2, i + 2) else Option.none
    else Option.none
  else some (last, i)

/-- One coordinate pass (`for mut p in &mut points { p.x = load_vec(...) }`),
parameterised by the short/same flag bits (x: `0x02`/`0x10`, y: `0x04`/`0x20`)
and the field setter. -/
def loadCoords (data : List Nat) (shortMask sameMask : Nat)
    (set : GlyphPoint → Int → GlyphPoint) :
    List GlyphPoint → Nat → Int → Option (List GlyphPoint × Nat)
  | [], i, _ => some ([], i)
  | p :: ps, i, last =>
    match loadVec data i last (p.flag &&& shortMask ≠ 0) (p.flag &&& sameMask ≠ 0) with
    | Option.none => Option.none
    | some (l2, i2) =>
      match loadCoords data shortMask sameMask set ps i2 l2 with
      | Option.none => Option.none
      | some (rest, i3) => some (set p l2 :: rest, i3)

/-- The component-record loop of the composite branch (reads records until
a flag word without `MORE_COMPONENTS`).  Fuel is structural; each record
consumes at least five bytes, so callers pass `s.length + 1`. -/
def readComponents (s : List Nat) : Nat → Nat →
    Option (List ComponentGlyphDescription × Bool × Nat)
  | 0, _ => Option.none
  | fuel + 1, pos =>
    match readU16 s pos with
    | Option.none => Option.none
    | some (flraw, p1) =>
      let flags := flraw &&& 0x7ef
      match readU16 s p1 with
      | Option.none => Option.none
      | some (ix, p2) =>
        match (if flags &&& 1 ≠ 0 then
                 match readU16 s p2 with
                 | Option.none => Option.none
                 | some (a1, q1) =>
                   match readU16 s q1 with
                   | Option.none => Option.none
                   | some (a2, q2) => some (a1, a2, q2)
               else
                 match readU8 s p2 with
                 | Option.none => Option.none
                 | some (a12, q1) => some (a12 >>> 8, a12 &&& 0xff, q1)) with
        | Option.none => Option.none
        | some (arg1, arg2, p3) =>
          match (if flags &&& 8 ≠ 0 then
                   match readI16 s p3 with
                   | Option.none => Option.none
                   | some (v, q1) => some (Transformation.uniform v, q1)
                 else if flags &&& 0x40 ≠ 0 then
                   match readI16 s p3 with
                   | Option.none => Option.none
                   | some (a, q1) =>
                     match readI16 s q1 with
                     | Option.none => Option.none
                     | some (b, q2) => some (Transformation.xy a b, q2)
                 else if flags &&& 0x80 ≠ 0 then
                   match readI16 s p3 with
                   | Option.none => Option.none
                   | some (a, q1) =>
                     match readI16 s q1 with
                     | Option.none => Option.none
                     | some (b, q2) =>
                       match readI16 s q2 with
                       | Option.none => Option.none
                       | some (c, q3) =>
                         match readI16 s q3 with
                         | Option.none => Option.none
                         | some (d, q4) => some (Transformation.mat2x2 a b c d, q4)
                 else some (Transformation.uniform 0x4000, p3)) with
          | Option.none => Option.none
          | some (tf, p4) =>
            let comp : ComponentGlyphDescription :=
              ⟨ix, arg1, arg2, tf, flags &&& 0x200 ≠ 0⟩
            let hasInstr := flags &&& 0x100 ≠ 0
            if flags &&& 0x20 ≠ 0 then
              match readComponents s fuel p4 with
              | Option.none => Option.none
              | some (rest, restInstr, p5) =>
                some (comp :: rest, hasInstr || restInstr, p5)
            else some ([comp], hasInstr, p4)

/-- `GlyphDescription::from_binary`.  `num_points` is the `maxp` guess the
source threads through but never uses.  Returns the parsed description and
the final cursor, or `none` on a short read, a failed `assert!`, or an
out-of-bounds index. -/
def glyphFromBinary (s : List Nat) (pos num_points glyph_length : Nat) :
    Option (GlyphDescription × Nat) :=
  if glyph_length = 0 then some (GlyphDescription.none, pos) else
  match readI16 s pos with
  | Option.none => Option.none
  | some (nc, p1) =>
  match readI16 s p1 with
  | Option.none => Option.none
  | some (x_min, p2) =>
  match readI16 s p2 with
  | Option.none => Option.none
  | some (y_min, p3) =>
  match readI16 s p3 with
  | Option.none => Option.none
  | some (x_max, p4) =>
  match readI16 s p4 with
  | Option.none => Option.none
  | some (y_max, p5) =>
  if 0 < nc then
    match readU16s s nc.toNat p5 with
    | Option.none => Option.none
    | some (epoc, p6) =>
    match readU16 s p6 with
    | Option.none => Option.none
    | some (num_instr, p7) =>
    match readBytes s p7 num_instr with
    | Option.none => Option.none
    | some (instr, p8) =>
    match readBytes s p8 glyph_length with
    | Option.none => Option.none
    | some (data, p9) =>
    match decodeFlags data ((epoc.getLastD 0 + 1) % 65536) (data.length + 1) 0 [] with
    | Option.none => Option.none
    | some (pts0, i0) =>
    if pts0.length < data.length then
      match loadCoords data 2 16 (fun p v => { p with x := v }) pts0 i0 0 with
      | Option.none => Option.none
      | some (pts1, i1) =>
      match loadCoords data 4 32 (fun p v => { p with y := v }) pts1 i1 0 with
      | Option.none => Option.none
      | some (pts2, _) =>
        some (GlyphDescription.simple nc.toNat x_min y_min x_max y_max epoc instr pts2, p9)
    else Option.none
  else if nc < 0 then
    match readComponents s (s.length + 1) p5 with
    | Option.none => Option.none
    | some (comps, hasInstr, p6) =>
      if hasInstr then
        match readU16 s p6 with
        | Option.none => Option.none
        | some (ni, p7) =>
          match readBytes s p7 ni with
          | Option.none => Option.none
          | some (ib, p8) => some (GlyphDescription.composite comps ib, p8)
      else some (GlyphDescription.composite comps [0, 0], p6)
  else some (GlyphDescription.none, p5)

/-- Points list of a Simple glyph (projection used to state C1). -/
def simplePoints : GlyphDescription → List GlyphPoint
  | GlyphDescription.simple _ _ _ _ _ _ _ pts => pts
  | _ => []

/-- Contour end-point indices of a Simple glyph (projection used to state C1). -/
def simpleEpoc : GlyphDescription → List Nat
  | GlyphDescription.simple _ _ _ _ _ epoc _ _ => epoc
  | _ => []

def c1stream : List Nat :=
  [0,2, 0,0, 0,0, 0,0, 0,0, 0,5, 0,3, 0,0,
   0x37,0x37,0x37,0x37, 1,2,3,4, 1,2,3,4, 0,0,0,0]

def c1good : List Nat :=
  [0,1, 0,0, 0,0, 0,0, 0,0, 0,3, 0,0,
   0x37,0x37,0x37,0x37, 1,2,3,4, 1,2,3,4, 0,0,0,0]

def c1goodPts : List GlyphPoint :=
  [⟨true,1,1,0x37⟩, ⟨true,3,3,0x37⟩, ⟨true,6,6,0x37⟩, ⟨true,10,10,0x37⟩]

/-! ## C3: `SfntFont::from_binary` table-directory reordering
(`src/truetype_loader/mod.rs`)

Table tags are their big-endian `u32` codes from `table_tag_code!`.  The
directory-construction loop inserts MaxProfile at index 0, FontHeader at
index 1 and LocationIndex at index 2 of the directory built so far and
appends every other entry; the subsequent per-table parse loop visits the
resulting list in order, so the list order below IS the processing
order. -/

def maxpTag : Nat := 0x6d617870
def headTag : Nat := 0x68656164
def locaTag : Nat := 0x6c6f6361
def glyfTag : Nat := 0x676c7966
def cmapTag : Nat := 0x636d6170
def cvtTag : Nat := 0x63767420
def hheaTag : Nat := 0x68686561
def prepTag : Nat := 0x70726570

/-- `Vec::insert`: panics (modelled `none`) when the index exceeds the
current length. -/
def insertAt (l : List Nat) (idx : Nat) (x : Nat) : Option (List Nat) :=
  if idx ≤ l.length then some (l.insertIdx idx x) else Option.none

/-- A tag that is none of maxp/head/loca (such entries are appended). -/
def notSpecial (t : Nat) : Prop := t ≠ maxpTag ∧ t ≠ headTag ∧ t ≠ locaTag

instance (t : Nat) : Decidable (notSpecial t) := by unfold notSpecial; infer_instance

/-- The directory-construction loop of `SfntFont::from_binary` over the
remaining entries, with the directory built so far as accumulator. -/
def orderTagsAux : List Nat → List Nat → Option (List Nat)
  | acc, [] => some acc
  | acc, t :: ts =>
    match (if t = maxpTag then insertAt acc 0 t
           else if t = headTag then insertAt acc 1 t
           else if t = locaTag then insertAt acc 2 t
           else some (acc ++ [t])) with
    | Option.none => Option.none
    | some acc1 => orderTagsAux acc1 ts

def orderTags (entries : List Nat) : Option (List Nat) := orderTagsAux [] entries

/-! ## `src/lib.rs`: the Outline Assembler (`Glyph::from_truetype_with_points`)

Assembler point coordinates are `f32` in the source, modelled as `ℚ`; all
values any C9 statement touches are small integers or exact halves, on
which `f32` arithmetic is exact. -/

/-- `Point` (the `f32` pixel-domain point of `lib.rs`). -/
structure PointQ where
  x : ℚ
  y : ℚ
deriving DecidableEq

/-- `Curve`: `Line(start, end)` / `Quad(start, ctrl, end)` over indices
into the shared point array. -/
inductive Curve where
  | line (a b : Nat)
  | quad (start ctrl stop : Nat)
deriving DecidableEq

/-- `Glyph`: primitives plus the (possibly extended) point array. -/
structure Glyph where
  curves : List Curve
  points : List PointQ
deriving DecidableEq

/-- `wrap(i, start, end)`: modular wraparound within a contour. -/
def wrap (i s e : Nat) : Nat :=
  let len := e - s
  if e ≤ i then s + (i - s) % len
  else if i < s then s + (s - i) % len
  else i

/-- The assembler's mutable pair: the growing `curves` and `points` lists. -/
structure AsmState where
  curves : List Curve
  points : List PointQ
deriving DecidableEq

/-- The leading-skip loop `while !spoints[i].on_curve { i += 1 }`.  It is
not bounded by the contour: it scans until an on-curve point is found
anywhere, and a run past the array (a Rust index panic) is `none`. -/
def skipOffCurve (spoints : List GlyphPoint) : Nat → Nat → Option Nat
  | 0, _ => Option.none
  | fuel + 1, i =>
    match spoints.get? i with
    | Option.none => Option.none
    | some sp => if sp.on_curve then some i else skipOffCurve spoints fuel (i + 1)

/-- The inner `while !spoints[ib].on_curve` loop of the off-curve arm: for
each consecutive off-curve pair it appends the implicit on-curve midpoint
(the arithmetic mean) to the point list and emits a `Quad` ending at it;
on the closing on-curve point it emits the final `Quad`.  Returns the new
state, the loop's final `i`, and the new `last_point`. -/
def offLoop (spoints : List GlyphPoint) (le ep : Nat) :
    Nat → Nat → Nat → PointQ → Nat → AsmState → Option (AsmState × Nat × Nat)
  | 0, _, _, _, _, _ => Option.none
  | fuel + 1, i, ia, a, lastPoint, st =>
    let ib := wrap i le ep
    match spoints.get? ib, st.points.get? ib with
    | some sib, some b =>
      if sib.on_curve then
        some ({ st with curves := st.curves ++ [Curve.quad lastPoint ia ib] }, i, ib)
      else
        let mid : PointQ := ⟨(a.x + b.x) / 2, (a.y + b.y) / 2⟩
        let im := st.points.length
        offLoop spoints le ep fuel (i + 1) ib b im
          ⟨st.curves ++ [Curve.quad lastPoint ia im], st.points ++ [mid]⟩
    | _, _ => Option.none

/-- The per-contour `while i < endpoint` loop.  Note the source does not
advance `i` past a `Quad`'s end point, so an on-curve point that closes a
`Quad` is revisited and emits a degenerate `Line(p, p)`. -/
def contourLoop (spoints : List GlyphPoint) (le ep : Nat) :
    Nat → Nat → Nat → AsmState → Option (AsmState × Nat)
  | 0, _, _, _ => Option.none
  | fuel + 1, i, lastPoint, st =>
    if i < ep then
      match spoints.get? i with
      | Option.none => Option.none
      | some sp =>
        if sp.on_curve then
          contourLoop spoints le ep fuel (i + 1) i
            { st with curves := st.curves ++ [Curve.line lastPoint i] }
        else
          match st.points.get? i with
          | Option.none => Option.none
          | some a =>
            let ib := wrap (i + 1) le ep
            match spoints.get? ib, st.points.get? ib with
            | some sib, some _ =>
              if sib.on_curve then
                contourLoop spoints le ep fuel (i + 1) ib
                  { st with curves := st.curves ++ [Curve.quad lastPoint i ib] }
              else
                match offLoop spoints le ep fuel (i + 1) i a lastPoint st with
                | Option.none => Option.none
                | some (st1, i1, lp1) => contourLoop spoints le ep fuel i1 lp1 st1
            | _, _ => Option.none
    else some (st, lastPoint)

/-- The outer `for &ep in end_points_of_contours` loop, closing each
contour with a `Line` back to its starting index. -/
def contoursLoop (spoints : List GlyphPoint) (fuel : Nat) :
    List Nat → Nat → AsmState → Option AsmState
  | [], _, st => some st
  | ep :: rest, le, st =>
    let endpoint := ep + 1
    match skipOffCurve spoints (spoints.length + 1) le with
    | Option.none => Option.none
    | some ifst =>
      match contourLoop spoints le endpoint fuel (ifst + 1) ifst st with
      | Option.none => Option.none
      | some (st1, lp) =>
        contoursLoop spoints fuel rest endpoint
          { st1 with curves := st1.curves ++ [Curve.line lp le] }

/-- `Glyph::from_truetype_with_points`: assembles a Simple glyph's outline
over the supplied (scaled) point array; `None` for Composite/None glyphs,
and `none` likewise for any index panic inside the loops. -/
def fromTruetypeWithPoints (g : GlyphDescription) (cpoints : List PointQ) : Option Glyph :=
  match g with
  | GlyphDescription.simple _ _ _ _ _ epoc _ spoints =>
    match contoursLoop spoints (2 * spoints.length + 2 * cpoints.length + 8) epoc 0
        ⟨[], cpoints⟩ with
    | Option.none => Option.none
    | some st => some ⟨st.curves, st.points⟩
  | _ => Option.none

/-- The claim's contour: (0,0) off-curve, (10,0) off-curve, (10,10)
on-curve, a single contour with end-point index 2. -/
def c9glyph : GlyphDescription :=
  GlyphDescription.simple 1 0 0 10 10 [2] []
    [⟨false, 0, 0, 0⟩, ⟨false, 10, 0, 0⟩, ⟨true, 10, 10, 0⟩]

def c9points : List PointQ := [⟨0, 0⟩, ⟨10, 0⟩, ⟨10, 10⟩]

def c9glyph4 : GlyphDescription :=
  GlyphDescription.simple 1 (-10) 0 10 10 [3] []
    [⟨true, -10, 10, 0⟩, ⟨false, 0, 0, 0⟩, ⟨false, 10, 0, 0⟩, ⟨true, 10, 10, 0⟩]

def c9points4 : List PointQ := [⟨-10, 10⟩, ⟨0, 0⟩, ⟨10, 0⟩, ⟨10, 10⟩]

def c9spoints4 : List GlyphPoint :=
  [⟨true, -10, 10, 0⟩, ⟨false, 0, 0, 0⟩, ⟨false, 10, 0, 0⟩, ⟨true, 10, 10, 0⟩]

/-! ## `src/interp_instructor.rs`: the hinting VM

`f32` state values are modelled as `ℚ`.  The single irrational operation,
the `sqrt` inside `Vector::len`, is approximated by `sqrtQ`; it feeds only
the value pushed by the MD opcodes, on which no claim depends. -/

/-- The `f32` vector of the graphics state. -/
structure Vector where
  x : ℚ
  y : ℚ
deriving DecidableEq

/-- Rational stand-in for `f32::sqrt` (used only by `Vector.len`); exact
floating-point square roots are outside the embedding, and no claim
depends on a value computed through this. -/
def sqrtQ (q : ℚ) : ℚ := (Nat.sqrt (q.num.toNat * q.den)) / (q.den : ℚ)

def Vector.len (v : Vector) : ℚ := sqrtQ (v.x * v.x + v.y * v.y)

/-- `Vector::project`: dot product against the normalised vector. -/
def Vector.project (v : Vector) (p : PointQ) : ℚ :=
  p.x * v.x / v.len + p.y * v.y / v.len

/-- `InterpState`: the graphics state.  `rp`/`zp` arrays are unrolled into
three fields each. -/
structure InterpState where
  auto_flip : Bool
  cvt_cutin : ℚ
  delta_base : Nat
  delta_shift : Nat
  dual_prj_vec : Vector
  freedom_vec : Vector
  instruct_ctrl : Bool
  loopv : Nat
  min_dist : ℚ
  project_vec : Vector
  round_state : Nat
  rp0 : Nat
  rp1 : Nat
  rp2 : Nat
  scan_ctrl : Bool
  single_width_cut_in : ℚ
  single_width_value : ℚ
  zp0 : Nat
  zp1 : Nat
  zp2 : Nat
  twilight_zone : List PointQ
  cv_table : List Int
deriving DecidableEq

/-- `InterpState::new` with its initial values. -/
def InterpState.new (cv : List Int) : InterpState :=
  { auto_flip := true, cvt_cutin := 17 / 16, delta_base := 9, delta_shift := 3,
    dual_prj_vec := ⟨0, 0⟩, freedom_vec := ⟨1, 0⟩, instruct_ctrl := false, loopv := 1,
    min_dist := 1, project_vec := ⟨1, 0⟩, round_state := 1, rp0 := 0, rp1 := 0, rp2 := 0,
    scan_ctrl := false, single_width_cut_in := 0, single_width_value := 0,
    zp0 := 1, zp1 := 1, zp2 := 1, twilight_zone := [], cv_table := cv }

/-- The source's `sign_extend` stub: it ignores its argument and returns 0. -/
def sign_extend (v : Nat) : Nat := 0

/-- `Interp`: the interpreter's mutable data (stack of `u32` words with the
head as top-of-stack, program counter, graphics state, the current and
original point arrays, and the scaler scalars captured at construction). -/
structure Machine where
  stack : List Nat
  pc : Nat
  state : InterpState
  original_points : List PointQ
  points : List PointQ
  uniform_scale : ℚ
  units_per_em : ℚ
  point_size : ℚ
deriving DecidableEq

/-- The two `ScalerError` variants the interpreter itself produces. -/
inductive VMErr where
  | stackUnderflow (pc : Nat)
  | invalidInstruction (pc : Nat) (op : Nat)
deriving DecidableEq

/-- Outcome of a failed step: a returned `ScalerError`, a Rust panic
(`crash`: out-of-bounds index, arithmetic panic, or an explicit `panic!`),
or exhaustion of the model's fuel (`fuelOut`, never reached by the
concrete runs below). -/
inductive StepFail where
  | err (e : VMErr)
  | crash
  | fuelOut
deriving DecidableEq

/-- `pop_f26dot6`: the popped `u32` word is reinterpreted as `i32` and then
converted with `F26d6::from(i32)`, which shifts left by 6 — the source
converts rather than reinterpreting, which is the C6 bug. -/
def popF26 (v : Nat) : Int := F26d6.fromI32 (toI32 v)

/-- `f32` → integer cast truncates toward zero. -/
def ratTrunc (q : ℚ) : Int := Int.tdiv q.num q.den

/-- `f32 as u32`: truncate toward zero, saturating at the `u32` range. -/
def ratToU32 (q : ℚ) : Nat :=
  if q ≤ 0 then 0 else min (ratTrunc q).toNat 4294967295

/-- Bitwise or of an `i32` with a small nonnegative value. -/
def orI32 (a : Int) (b : Nat) : Int := toI32 (toU32 a ||| b)

/-- `From<f32> for F26d6`: `(v.floor() as i32) << 6 | ((v.fract().abs() *
64.0).ceil() as i32 & 0x4f)` (note the source's odd `0x4f` mask). -/
def f26FromFloat (q : ℚ) : Int :=
  let i : Int := ⌊q⌋
  let f : Int := ⌈|q - (ratTrunc q : ℚ)| * 64⌉
  orI32 (wrapI32 (i * 64)) (f.toNat &&& 0x4f)

/-- `push_bytes`: push the `n` operand bytes at `pc+1 ..= pc+n` in order
(so the last byte ends on top), then advance `pc` by `n`.  `none` models
the index panic when the operand range leaves the program. -/
def pushBytes (prog : List Nat) (pc n : Nat) (stack : List Nat) :
    Option (List Nat × Nat) :=
  if n = 0 then some (stack, pc)
  else if pc + n < prog.length then
    some (((prog.drop (pc + 1)).take n).reverse ++ stack, pc + n)
  else Option.none

/-- `push_words`: the source loops `i` over `pc+1 ..= pc+2n` — once per
BYTE, not per word — pushing `sign_extend(instructions[i] << 8 |
instructions[i+1])` each time, so it pushes `2n` values (each 0, by the
`sign_extend` stub) and reads one byte past the operand block (the `i+1`
access at the last iteration), then advances `pc` by `2n`. -/
def pushWords (prog : List Nat) (pc n : Nat) (stack : List Nat) :
    Option (List Nat × Nat) :=
  if n = 0 then some (stack, pc)
  else if pc + 2 * n + 1 < prog.length then
    some ((((List.range (2 * n)).map fun k =>
      sign_extend ((prog.getD (pc + 1 + k) 0) * 256 + prog.getD (pc + 2 + k) 0)).reverse
        ++ stack, pc + 2 * n))
  else Option.none

/-- The IF-skip loop: `while instructions[pc] != 0x1b || instructions[pc]
!= 0x59 { pc += 1 }`.  The condition is a contradictory disjunction (no
byte equals both 0x1b and 0x59), so the loop only stops by running past
the program, an index panic modelled as `none`. -/
def ifScan (prog : List Nat) : Nat → Nat → Option Nat
  | 0, _ => Option.none
  | fuel + 1, pc =>
    if pc < prog.length then
      if prog.getD pc 0 ≠ 0x1b ∨ prog.getD pc 0 ≠ 0x59 then ifScan prog fuel (pc + 1)
      else some pc
    else Option.none

/-- The ELSE-skip loop: `while instructions[pc] != 0x59 { pc += 1 }`,
panicking (`none`) if no EIF follows. -/
def elseScan (prog : List Nat) : Nat → Nat → Option Nat
  | 0, _ => Option.none
  | fuel + 1, pc =>
    if pc < prog.length then
      if prog.getD pc 0 ≠ 0x59 then elseScan prog fuel (pc + 1) else some pc
    else Option.none

/-- `pop` on an empty stack: `StackUnderflow` carrying the current pc. -/
def underflow (m : Machine) : Except StepFail Machine :=
  Except.error (StepFail.err (VMErr.stackUnderflow m.pc))

/-- An opcode body of shape `push(f(pop_f26dot6()?).into())`. -/
def unaryF26 (f : Int → Int) (m : Machine) : Except StepFail Machine :=
  match m.stack with
  | v :: r => Except.ok { m with stack := toU32 (f (popF26 v)) :: r }
  | _ => underflow m

/-- An opcode body of shape
`push((f(pop_f26dot6()?, pop_f26dot6()?)).into())`; the first argument is
the first pop, i.e. the old top of stack. -/
def binF26 (f : Int → Int → Int) (m : Machine) : Except StepFail Machine :=
  match m.stack with
  | a :: b :: r => Except.ok { m with stack := toU32 (f (popF26 a) (popF26 b)) :: r }
  | _ => underflow m

/-- `Interp::compare`: pop two, push 1 or 0; `f` receives the first pop
(old top) as its first argument. -/
def compareOp (f : Nat → Nat → Bool) (m : Machine) : Except StepFail Machine :=
  match m.stack with
  | a :: b :: r => Except.ok { m with stack := (if f a b then 1 else 0) :: r }
  | _ => underflow m

/-- The body of every arm of the `match instructions[self.pc]` dispatch of
`Interp::interpret`, one branch per opcode in the source's order.
Comment-only arms in the source are no-ops here as well.  The final branch
is unreachable through `execOp` (which checks `definedOp` first, the
complement of the source's default arm). -/
def execKnown (op : Nat) (prog : List Nat) (m : Machine) : Except StepFail Machine :=
  if op = 0x7f then (match m.stack with | _ :: r => Except.ok { m with stack := r } | _ => underflow m)
  else if op = 0x64 then unaryF26 F26d6.abs m
  else if op = 0x60 then binF26 F26d6.add m
  else if op = 0x27 then Except.ok m
  else if op = 0x3c then Except.ok m
  else if op = 0x5a then
    (match m.stack with
     | a :: b :: r => Except.ok { m with stack := (if a = 1 ∧ b = 1 then 1 else 0) :: r }
     | _ => underflow m)
  else if op = 0x2b then Except.ok m
  else if op = 0x67 then unaryF26 F26d6.ceil m
  else if op = 0x25 then Except.ok m
  else if op = 0x22 then Except.ok { m with stack := [] }
  else if op = 0x4f then (match m.stack with | _ :: r => Except.ok { m with stack := r } | _ => underflow m)
  else if op = 0x73 ∨ op = 0x74 ∨ op = 0x75 then Except.ok m
  else if op = 0x5d ∨ op = 0x71 ∨ op = 0x72 then Except.ok m
  else if op = 0x24 then Except.ok { m with stack := m.stack.length :: m.stack }
  else if op = 0x62 then
    (match m.stack with
     | a :: b :: r =>
       if popF26 b = 0 then Except.error StepFail.crash
       else if popF26 a = -2147483648 ∧ popF26 b = -1 then Except.error StepFail.crash
       else Except.ok { m with stack := toU32 (Int.tdiv (popF26 a) (popF26 b)) :: r }
     | _ => underflow m)
  else if op = 0x20 then
    (match m.stack with
     | t :: r => Except.ok { m with stack := t :: t :: r }
     | _ => Except.error StepFail.crash)
  else if op = 0x59 then Except.ok m
  else if op = 0x1b then
    (match elseScan prog (prog.length + 1) m.pc with
     | some p => Except.ok { m with pc := p + 1 }
     | Option.none => Except.error StepFail.crash)
  else if op = 0x2d then Except.ok m
  else if op = 0x54 then compareOp (fun a b => a = b) m
  else if op = 0x57 then Except.ok m
  else if op = 0x2c then Except.ok m
  else if op = 0x4e then Except.ok { m with state := { m.state with auto_flip := false } }
  else if op = 0x4d then Except.ok { m with state := { m.state with auto_flip := true } }
  else if op = 0x80 ∨ op = 0x82 ∨ op = 0x81 then Except.ok m
  else if op = 0x66 then unaryF26 F26d6.floor m
  else if op = 0x46 ∨ op = 0x47 then Except.ok m
  else if op = 0x88 then
    (match m.stack with
     | _ :: r => Except.ok { m with stack := 0 :: r }
     | _ => underflow m)
  else if op = 0x0d then
    Except.ok { m with stack := (toU32 (f26FromFloat m.state.freedom_vec.y) ::
      toU32 (f26FromFloat m.state.freedom_vec.x) :: m.stack) }
  else if op = 0x0c then
    Except.ok { m with stack := (toU32 (f26FromFloat m.state.project_vec.y) ::
      toU32 (f26FromFloat m.state.project_vec.x) :: m.stack) }
  else if op = 0x52 then compareOp (fun a b => b < a) m
  else if op = 0x53 then compareOp (fun a b => b ≤ a) m
  else if op = 0x89 then Except.ok m
  else if op = 0x58 then
    (match m.stack with
     | cond :: r =>
       if cond = 0 then
         match ifScan prog (prog.length + 1) m.pc with
         | some p => Except.ok { m with stack := r, pc := p + 1 }
         | Option.none => Except.error StepFail.crash
       else Except.ok { m with stack := r }
     | _ => underflow m)
  else if op = 0x8e then Except.error StepFail.crash
  else if op = 0x39 ∨ op = 0x0f ∨ op = 0x30 ∨ op = 0x31 then Except.ok m
  else if op = 0x1c then
    (match m.stack with
     | v :: r => Except.ok { m with stack := r, pc := m.pc + (v + 4294967295) % 4294967296 }
     | _ => underflow m)
  else if op = 0x79 then
    (match m.stack with
     | e :: offset :: r =>
       if e = 0 then
         Except.ok { m with stack := r, pc := m.pc + (offset + 4294967295) % 4294967296 }
       else Except.ok { m with stack := r }
     | _ => underflow m)
  else if op = 0x78 then
    (match m.stack with
     | e :: offset :: r =>
       if e = 1 then
         Except.ok { m with stack := r, pc := m.pc + (offset + 4294967295) % 4294967296 }
       else Except.ok { m with stack := r }
     | _ => underflow m)
  else if op = 0x2a then Except.ok m
  else if op = 0x50 then compareOp (fun a b => a < b) m
  else if op = 0x51 then compareOp (fun a b => a ≤ b) m
  else if op = 0x8b then
    (match m.stack with
     | a :: b :: r => Except.ok { m with stack := max a b :: r }
     | _ => underflow m)
  else if op = 0x49 then
    (match m.stack with
     | p1 :: p2 :: r =>
       match m.points.get? p1, m.points.get? p2 with
       | some q1, some q2 =>
         Except.ok { m with stack := toU32 (f26FromFloat
           (m.state.project_vec.project q2 - m.state.project_vec.project q1)) :: r }
       | _, _ => Except.error StepFail.crash
     | _ => underflow m)
  else if op = 0x4a then
    (match m.stack with
     | p1 :: p2 :: r =>
       match m.original_points.get? p1, m.original_points.get? p2 with
       | some q1, some q2 =>
         Except.ok { m with stack := toU32 (f26FromFloat
           (m.state.project_vec.project q2 - m.state.project_vec.project q1)) :: r }
       | _, _ => Except.error StepFail.crash
     | _ => underflow m)
  else if op = 0x2e ∨ op = 0x2f then Except.ok m
  else if 0xc0 ≤ op ∧ op ≤ 0xdf then Except.ok m
  else if op = 0x3e ∨ op = 0x3f then Except.ok m
  else if op = 0x8c then
    (match m.stack with
     | a :: b :: r => Except.ok { m with stack := min a b :: r }
     | _ => underflow m)
  else if op = 0x26 then Except.ok m
  else if 0xe0 ≤ op ∧ op ≤ 0xff then Except.ok m
  else if op = 0x4b then Except.ok { m with stack := ratToU32 m.uniform_scale :: m.stack }
  else if op = 0x4c then Except.ok { m with stack := ratToU32 m.point_size :: m.stack }
  else if op = 0x3a ∨ op = 0x3b then Except.ok m
  else if op = 0x63 then binF26 F26d6.mul m
  else if op = 0x65 then unaryF26 F26d6.neg m
  else if op = 0x55 then compareOp (fun a b => a ≠ b) m
  else if op = 0x5c then
    (match m.stack with
     | v :: r => Except.ok { m with stack := (if v = 0 then 1 else 0) :: r }
     | _ => underflow m)
  else if op = 0x40 then
    (if m.pc + 1 < prog.length then
       match pushBytes prog (m.pc + 1) (prog.getD (m.pc + 1) 0) m.stack with
       | some sp => Except.ok { m with stack := sp.1, pc := sp.2 }
       | Option.none => Except.error StepFail.crash
     else Except.error StepFail.crash)
  else if op = 0x41 then
    (if m.pc + 1 < prog.length then
       match pushWords prog (m.pc + 1) (prog.getD (m.pc + 1) 0) m.stack with
       | some sp => Except.ok { m with stack := sp.1, pc := sp.2 }
       | Option.none => Except.error StepFail.crash
     else Except.error StepFail.crash)
  else if 0x6c ≤ op ∧ op ≤ 0x6f then Except.ok m
  else if op = 0x56 then Except.ok m
  else if op = 0x5b then
    (match m.stack with
     | a :: b :: r => Except.ok { m with stack := (if a = 1 ∨ b = 1 then 1 else 0) :: r }
     | _ => underflow m)
  else if op = 0x21 then (match m.stack with | _ :: r => Except.ok { m with stack := r } | _ => underflow m)
  else if 0xb0 ≤ op ∧ op ≤ 0xb7 then
    (match pushBytes prog m.pc (op - 0xaf) m.stack with
     | some sp => Except.ok { m with stack := sp.1, pc := sp.2 }
     | Option.none => Except.error StepFail.crash)
  else if 0xb8 ≤ op ∧ op ≤ 0xbf then
    (match pushWords prog m.pc (op - 0xb7) m.stack with
     | some sp => Except.ok { m with stack := sp.1, pc := sp.2 }
     | Option.none => Except.error StepFail.crash)
  else if op = 0x45 ∨ op = 0x7d ∨ op = 0x7a then Except.ok m
  else if op = 0x8a then
    (match m.stack with
     | a :: b :: c :: r => Except.ok { m with stack := c :: b :: a :: r }
     | _ => Except.error StepFail.crash)
  else if 0x68 ≤ op ∧ op ≤ 0x6b then Except.ok m
  else if op = 0x43 ∨ op = 0x3d ∨ op = 0x18 ∨ op = 0x19 ∨ op = 0x7c ∨ op = 0x77 then Except.ok m
  else if op = 0x7e then (match m.stack with | _ :: r => Except.ok { m with stack := r } | _ => underflow m)
  else if op = 0x85 ∨ op = 0x8d ∨ op = 0x48 ∨ op = 0x1d then Except.ok m
  else if op = 0x5e then
    (match m.stack with
     | v :: r => Except.ok { m with stack := r, state := { m.state with delta_base := v } }
     | _ => underflow m)
  else if op = 0x86 ∨ op = 0x87 then Except.ok m
  else if op = 0x5f then
    (match m.stack with
     | v :: r => Except.ok { m with stack := r, state := { m.state with delta_shift := v } }
     | _ => underflow m)
  else if op = 0x0b then
    (match m.stack with
     | a :: b :: r => Except.ok { m with stack := r, state := { m.state with freedom_vec := ⟨(popF26 a : ℚ), (popF26 b : ℚ)⟩ } }
     | _ => underflow m)
  else if op = 0x04 then Except.ok { m with state := { m.state with freedom_vec := ⟨0, 1⟩ } }
  else if op = 0x05 then Except.ok { m with state := { m.state with freedom_vec := ⟨1, 0⟩ } }
  else if op = 0x08 ∨ op = 0x09 then Except.ok m
  else if op = 0x0e then
    Except.ok { m with state := { m.state with freedom_vec := m.state.project_vec } }
  else if op = 0x34 ∨ op = 0x35 ∨ op = 0x32 ∨ op = 0x33 ∨ op = 0x38 ∨ op = 0x36 ∨ op = 0x37 then
    Except.ok m
  else if op = 0x17 then
    (match m.stack with
     | v :: r => Except.ok { m with stack := r, state := { m.state with loopv := v } }
     | _ => underflow m)
  else if op = 0x1a then
    (match m.stack with
     | v :: r => Except.ok { m with stack := r, state := { m.state with min_dist := (popF26 v : ℚ) } }
     | _ => underflow m)
  else if op = 0x0a then
    (match m.stack with
     | a :: b :: r => Except.ok { m with stack := r, state := { m.state with project_vec := ⟨(popF26 a : ℚ), (popF26 b : ℚ)⟩ } }
     | _ => underflow m)
  else if op = 0x02 then Except.ok { m with state := { m.state with project_vec := ⟨0, 1⟩ } }
  else if op = 0x03 then Except.ok { m with state := { m.state with project_vec := ⟨1, 0⟩ } }
  else if op = 0x06 ∨ op = 0x07 then Except.ok m
  else if op = 0x76 then Except.ok m
  else if op = 0x10 then
    (match m.stack with
     | v :: r => Except.ok { m with stack := r, state := { m.state with rp0 := v } }
     | _ => underflow m)
  else if op = 0x11 then
    (match m.stack with
     | v :: r => Except.ok { m with stack := r, state := { m.state with rp1 := v } }
     | _ => underflow m)
  else if op = 0x12 then
    (match m.stack with
     | v :: r => Except.ok { m with stack := r, state := { m.state with rp2 := v } }
     | _ => underflow m)
  else if op = 0x1f then
    (match m.stack with
     | v :: r => Except.ok { m with stack := r, state := { m.state with single_width_value := (v : ℚ) } }
     | _ => underflow m)
  else if op = 0x1e then
    (match m.stack with
     | v :: r => Except.ok { m with stack := r, state := { m.state with single_width_cut_in := (v : ℚ) } }
     | _ => underflow m)
  else if op = 0x61 then binF26 F26d6.sub m
  else if op = 0x00 then
    Except.ok { m with state :=
      { m.state with freedom_vec := ⟨0, 1⟩, project_vec := ⟨0, 1⟩ } }
  else if op = 0x01 then
    Except.ok { m with state :=
      { m.state with freedom_vec := ⟨0, 1⟩, project_vec := ⟨1, 0⟩ } }
  else if op = 0x23 then
    (match m.stack with
     | a :: b :: r => Except.ok { m with stack := b :: a :: r }
     | _ => Except.error StepFail.crash)
  else if op = 0x13 then
    (match m.stack with
     | v :: r => Except.ok { m with stack := r, state := { m.state with zp0 := v } }
     | _ => underflow m)
  else if op = 0x14 then
    (match m.stack with
     | v :: r => Except.ok { m with stack := r, state := { m.state with zp1 := v } }
     | _ => underflow m)
  else if op = 0x15 then
    (match m.stack with
     | v :: r => Except.ok { m with stack := r, state := { m.state with zp2 := v } }
     | _ => underflow m)
  else if op = 0x16 then
    (match m.stack with
     | v :: r => Except.ok { m with stack := r, state := { m.state with zp0 := v, zp1 := v, zp2 := v } }
     | _ => underflow m)
  else if op = 0x29 ∨ op = 0x70 ∨ op = 0x44 ∨ op = 0x42 then Except.ok m
  else Except.error (StepFail.err (VMErr.invalidInstruction m.pc op))

/-- The opcodes carrying an arm in the source's `match` (the conditions
mirror `execKnown` branch for branch); everything else falls to the
default arm, `InvalidInstruction`. -/
def definedOp (op : Nat) : Bool :=
  if op = 0x7f then true
  else if op = 0x64 then true
  else if op = 0x60 then true
  else if op = 0x27 then true
  else if op = 0x3c then true
  else if op = 0x5a then true
  else if op = 0x2b then true
  else if op = 0x67 then true
  else if op = 0x25 then true
  else if op = 0x22 then true
  else if op = 0x4f then true
  else if op = 0x73 ∨ op = 0x74 ∨ op = 0x75 then true
  else if op = 0x5d ∨ op = 0x71 ∨ op = 0x72 then true
  else if op = 0x24 then true
  else if op = 0x62 then true
  else if op = 0x20 then true
  else if op = 0x59 then true
  else if op = 0x1b then true
  else if op = 0x2d then true
  else if op = 0x54 then true
  else if op = 0x57 then true
  else if op = 0x2c then true
  else if op = 0x4e then true
  else if op = 0x4d then true
  else if op = 0x80 ∨ op = 0x82 ∨ op = 0x81 then true
  else if op = 0x66 then true
  else if op = 0x46 ∨ op = 0x47 then true
  else if op = 0x88 then true
  else if op = 0x0d then true
  else if op = 0x0c then true
  else if op = 0x52 then true
  else if op = 0x53 then true
  else if op = 0x89 then true
  else if op = 0x58 then true
  else if op = 0x8e then true
  else if op = 0x39 ∨ op = 0x0f ∨ op = 0x30 ∨ op = 0x31 then true
  else if op = 0x1c then true
  else if op = 0x79 then true
  else if op = 0x78 then true
  else if op = 0x2a then true
  else if op = 0x50 then true
  else if op = 0x51 then true
  else if op = 0x8b then true
  else if op = 0x49 then true
  else if op = 0x4a then true
  else if op = 0x2e ∨ op = 0x2f then true
  else if 0xc0 ≤ op ∧ op ≤ 0xdf then true
  else if op = 0x3e ∨ op = 0x3f then true
  else if op = 0x8c then true
  else if op = 0x26 then true
  else if 0xe0 ≤ op ∧ op ≤ 0xff then true
  else if op = 0x4b then true
  else if op = 0x4c then true
  else if op = 0x3a ∨ op = 0x3b then true
  else if op = 0x63 then true
  else if op = 0x65 then true
  else if op = 0x55 then true
  else if op = 0x5c then true
  else if op = 0x40 then true
  else if op = 0x41 then true
  else if 0x6c ≤ op ∧ op ≤ 0x6f then true
  else if op = 0x56 then true
  else if op = 0x5b then true
  else if op = 0x21 then true
  else if 0xb0 ≤ op ∧ op ≤ 0xb7 then true
  else if 0xb8 ≤ op ∧ op ≤ 0xbf then true
  else if op = 0x45 ∨ op = 0x7d ∨ op = 0x7a then true
  else if op = 0x8a then true
  else if 0x68 ≤ op ∧ op ≤ 0x6b then true
  else if op = 0x43 ∨ op = 0x3d ∨ op = 0x18 ∨ op = 0x19 ∨ op = 0x7c ∨ op = 0x77 then true
  else if op = 0x7e then true
  else if op = 0x85 ∨ op = 0x8d ∨ op = 0x48 ∨ op = 0x1d then true
  else if op = 0x5e then true
  else if op = 0x86 ∨ op = 0x87 then true
  else if op = 0x5f then true
  else if op = 0x0b then true
  else if op = 0x04 then true
  else if op = 0x05 then true
  else if op = 0x08 ∨ op = 0x09 then true
  else if op = 0x0e then true
  else if op = 0x34 ∨ op = 0x35 ∨ op = 0x32 ∨ op = 0x33 ∨ op = 0x38 ∨ op = 0x36 ∨ op = 0x37 then true
  else if op = 0x17 then true
  else if op = 0x1a then true
  else if op = 0x0a then true
  else if op = 0x02 then true
  else if op = 0x03 then true
  else if op = 0x06 ∨ op = 0x07 then true
  else if op = 0x76 then true
  else if op = 0x10 then true
  else if op = 0x11 then true
  else if op = 0x12 then true
  else if op = 0x1f then true
  else if op = 0x1e then true
  else if op = 0x61 then true
  else if op = 0x00 then true
  else if op = 0x01 then true
  else if op = 0x23 then true
  else if op = 0x13 then true
  else if op = 0x14 then true
  else if op = 0x15 then true
  else if op = 0x16 then true
  else if op = 0x29 ∨ op = 0x70 ∨ op = 0x44 ∨ op = 0x42 then true
  else false

/-- One dispatch of `Interp::interpret`'s match: a defined opcode runs its
arm, an undefined one returns `InvalidInstruction(pc, op)`. -/
def execOp (op : Nat) (prog : List Nat) (m : Machine) : Except StepFail Machine :=
  if definedOp op = true then execKnown op prog m
  else Except.error (StepFail.err (VMErr.invalidInstruction m.pc op))

/-- One iteration of the interpreter loop: dispatch on the current opcode
byte, then the loop's trailing `self.pc += 1`. -/
def stepOnce (prog : List Nat) (m : Machine) : Except StepFail Machine :=
  (execOp (prog.getD m.pc 0) prog m).map fun m2 => { m2 with pc := m2.pc + 1 }

/-- `Interp::interpret`: run while `pc < instructions.len()`; errors
propagate out, and normal exit returns the machine.  Fuel is structural;
every concrete run below uses ample fuel. -/
def interpret (prog : List Nat) : Nat → Machine → Except StepFail Machine
  | 0, m => if m.pc < prog.length then Except.error StepFail.fuelOut else Except.ok m
  | fuel + 1, m =>
    if m.pc < prog.length then
      match stepOnce prog m with
      | Except.ok m2 => interpret prog fuel m2
      | e => e
    else Except.ok m

/-- A fresh interpreter as `Interp::new` builds it (empty point arrays, a
scaler at 12pt/72dpi over a 1000-upem font, scale 1 for simplicity). -/
def initMachine (stack : List Nat) : Machine :=
  { stack := stack, pc := 0, state := InterpState.new [], original_points := [],
    points := [], uniform_scale := 1, units_per_em := 1000, point_size := 12 }

deriving instance DecidableEq for Except

/-- Final stack of a successful run (used to state the concrete C5/C6
executions without comparing the full machine). -/
def resStack : Except StepFail Machine → Option (List Nat)
  | Except.ok m => some m.stack
  | Except.error _ => Option.none

/-- The opcodes whose arm consumes operands through `pop`/`pop_f26dot6`
first (C8): every one of these, on an empty stack, returns
`StackUnderflow` with the current pc. -/
def popOps : List Nat := [0x7f, 0x64, 0x60, 0x5a, 0x4f, 0x67, 0x62, 0x54, 0x66, 0x88, 0x52,
  0x53, 0x58, 0x1c, 0x79, 0x78, 0x50, 0x51, 0x8b, 0x49, 0x4a, 0x8c, 0x63, 0x65, 0x55, 0x5c,
  0x5b, 0x21, 0x7e, 0x5e, 0x5f, 0x0b, 0x17, 0x1a, 0x0a, 0x10, 0x11, 0x12, 0x1f, 0x1e, 0x61,
  0x13, 0x14, 0x15, 0x16]

/-- C10's opcode set: arithmetic, comparison, logic, stack manipulation
and immediate pushes (ADD, SUB, DIV, MUL, ABS, NEG, FLOOR, CEIL, MAX,
MIN, LT, LTEQ, GT, GTEQ, EQ, NEQ, NOT, AND, OR, DUP, POP, CLEAR, SWAP,
DEPTH, ROLL, PUSHB[0-7], PUSHW[0-7], NPUSHB, NPUSHW). -/
def c10ops : List Nat := [0x60, 0x61, 0x62, 0x63, 0x64, 0x65, 0x66, 0x67, 0x8b, 0x8c, 0x50, 0x51, 0x52, 0x53, 0x54, 0x55, 0x5c, 0x5a, 0x5b, 0x20, 0x21, 0x22, 0x23, 0x24, 0x8a, 0xb0, 0xb1, 0xb2, 0xb3, 0xb4, 0xb5, 0xb6, 0xb7, 0xb8, 0xb9, 0xba, 0xbb, 0xbc, 0xbd, 0xbe, 0xbf, 0x40, 0x41]

def c10state : InterpState :=
  { auto_flip := true, cvt_cutin := 0, delta_base := 9, delta_shift := 3,
    dual_prj_vec := ⟨0, 0⟩, freedom_vec := ⟨1, 0⟩, instruct_ctrl := false, loopv := 1,
    min_dist := 1, project_vec := ⟨1, 0⟩, round_state := 1, rp0 := 0, rp1 := 0, rp2 := 0,
    scan_ctrl := false, single_width_cut_in := 0, single_width_value := 0,
    zp0 := 1, zp1 := 1, zp2 := 1, twilight_zone := [], cv_table := [] }

def c10mach : Machine :=
  { stack := [1, 2], pc := 0, state := c10state,
    original_points := [⟨1, 2⟩], points := [⟨3, 4⟩],
    uniform_scale := 1, units_per_em := 1000, point_size := 12 }

def c10mach2 : Machine := { c10mach with stack := [192], pc := 1 }

/-! ## Theorems -/

/-- C7: the spec sentence "ceil and floor to the nearest integer multiple
of 64".  The floor half is correct: `F26d6.floor x` is a multiple of 64,
is at most `x`, and any larger multiple of 64 exceeds `x`.  The ceil half
fails: the source's `ceil` uses the floor mask, so `ceil 65 = 64 < 65`,
not the smallest multiple of 64 that is ≥ 65 (which is 128). -/
theorem C7_floor_ok_ceil_is_floor :
    (∀ x : Int, (64 ∣ F26d6.floor x) ∧ F26d6.floor x ≤ x ∧ x < F26d6.floor x + 64) ∧
      (∀ x : Int, F26d6.ceil x = F26d6.floor x) ∧
      F26d6.ceil 65 = 64 ∧ ¬ (65 ≤ F26d6.ceil 65) := by
  refine ⟨fun x => ⟨⟨x / 64, ?_⟩, ?_, ?_⟩, fun x => rfl, by decide, by decide⟩
  · have h := Int.ediv_add_emod x 64
    unfold F26d6.floor
    omega
  · have h := Int.emod_nonneg x (by decide : (64:Int) ≠ 0)
    unfold F26d6.floor
    omega
  · have h := Int.emod_lt_of_pos x (by decide : (0:Int) < 64)
    unfold F26d6.floor
    omega

/-! ## C1 and C2: Simple-glyph point decoding -/

theorem readU8_eq {s : List Nat} {pos v q : Nat} (h : readU8 s pos = some (v, q)) :
    q = pos + 1 ∧ pos < s.length := by
  unfold readU8 at h
  split at h <;> simp_all

theorem readU16_eq {s : List Nat} {pos v q : Nat} (h : readU16 s pos = some (v, q)) :
    q = pos + 2 := by
  unfold readU16 at h
  split at h
  · exact absurd h (by simp)
  next hi p1 h1 =>
    split at h
    · exact absurd h (by simp)
    next lo p2 h2 =>
      obtain ⟨e1, -⟩ := readU8_eq h1
      obtain ⟨e2, -⟩ := readU8_eq h2
      simp only [Option.some.injEq, Prod.mk.injEq] at h
      omega

theorem readI16_eq {s : List Nat} {pos : Nat} {v : Int} {q : Nat}
    (h : readI16 s pos = some (v, q)) : q = pos + 2 := by
  unfold readI16 at h
  split at h
  · exact absurd h (by simp)
  next hi p1 h1 =>
    split at h
    · exact absurd h (by simp)
    next lo p2 h2 =>
      obtain ⟨e1, -⟩ := readU8_eq h1
      obtain ⟨e2, -⟩ := readU8_eq h2
      simp only [Option.some.injEq, Prod.mk.injEq] at h
      omega

theorem readU16s_eq {s : List Nat} :
    ∀ {k pos : Nat} {vs : List Nat} {q : Nat}, readU16s s k pos = some (vs, q) →
      q = pos + 2 * k ∧ vs.length = k
  | 0, pos, vs, q, h => by
    unfold readU16s at h
    simp only [Option.some.injEq, Prod.mk.injEq] at h
    obtain ⟨h1, h2⟩ := h
    subst h1; subst h2
    simp
  | k + 1, pos, vs, q, h => by
    unfold readU16s at h
    split at h
    · exact absurd h (by simp)
    next v p1 h1 =>
      split at h
      · exact absurd h (by simp)
      next vs2 p2 h2 =>
        have e1 := readU16_eq h1
        obtain ⟨e2, e3⟩ := readU16s_eq h2
        simp only [Option.some.injEq, Prod.mk.injEq] at h
        obtain ⟨hv, hq⟩ := h
        subst hv; subst hq
        constructor
        · omega
        · simp [e3]

theorem readBytes_eq {s : List Nat} {pos n : Nat} {b : List Nat} {q : Nat}
    (h : readBytes s pos n = some (b, q)) :
    b = (s.drop pos).take n ∧ q = pos + n ∧ pos + n ≤ s.length ∧ b.length = n := by
  unfold readBytes at h
  split at h
  next hle =>
    simp only [Option.some.injEq, Prod.mk.injEq] at h
    obtain ⟨h1, h2⟩ := h
    subst h1; subst h2
    refine ⟨rfl, rfl, hle, ?_⟩
    simp [List.length_take, List.length_drop]
    omega
  · exact absurd h (by simp)

theorem pushRepeat_length (flag n : Nat) :
    ∀ (rc : Nat) (acc : List GlyphPoint), acc.length < max n 1 →
      (pushRepeat flag n rc acc).length = min (acc.length + rc) (max n 1)
  | 0, acc, h => by
    unfold pushRepeat
    omega
  | rc + 1, acc, h => by
    unfold pushRepeat
    simp only [List.length_append, List.length_cons, List.length_nil]
    split
    next hc =>
      simp only [List.length_append, List.length_cons, List.length_nil]
      omega
    next hc =>
      rw [pushRepeat_length flag n rc _ (by simp; omega)]
      simp only [List.length_append, List.length_cons, List.length_nil]
      omega

theorem loadCoords_length {data : List Nat} {sm ss : Nat} {set : GlyphPoint → Int → GlyphPoint} :
    ∀ {ps : List GlyphPoint} {i : Nat} {l : Int} {res : List GlyphPoint} {j : Nat},
      loadCoords data sm ss set ps i l = some (res, j) → res.length = ps.length
  | [], i, l, res, j, h => by
    unfold loadCoords at h
    simp only [Option.some.injEq, Prod.mk.injEq] at h
    simp [← h.1]
  | p :: ps, i, l, res, j, h => by
    unfold loadCoords at h
    split at h
    · exact absurd h (by simp)
    next r h1 =>
      split at h
      · exact absurd h (by simp)
      next rest h2 =>
        simp only [Option.some.injEq, Prod.mk.injEq] at h
        have := loadCoords_length h2
        simp [← h.1, this]

theorem decodeFlags_len_le (data : List Nat) (n : Nat) :
    ∀ (fuel : Nat) {i : Nat} {acc res : List GlyphPoint} {j : Nat},
      acc.length < max n 1 →
      decodeFlags data n fuel i acc = some (res, j) → res.length ≤ max n 1
  | 0, i, acc, res, j, h, hp => by
    unfold decodeFlags at hp
    split at hp
    · exact absurd hp (by simp)
    · simp only [Option.some.injEq, Prod.mk.injEq] at hp
      obtain ⟨h1, h2⟩ := hp
      subst h1
      omega
  | fuel + 1, i, acc, res, j, h, hp => by
    simp only [decodeFlags] at hp
    by_cases hi : i < data.length
    · rw [if_pos hi] at hp
      by_cases hd : data.getD i 0 &&& 8 ≠ 0
      · rw [if_pos hd] at hp
        by_cases hib : i + 1 < data.length
        · rw [if_pos hib] at hp
          have hpl := pushRepeat_length (data.getD i 0) n ((data.getD (i+1) 0 + 1) % 256) acc h
          by_cases hstop :
              n ≤ (pushRepeat (data.getD i 0) n ((data.getD (i + 1) 0 + 1) % 256) acc).length
          · rw [if_pos hstop] at hp
            simp only [Option.some.injEq, Prod.mk.injEq] at hp
            obtain ⟨h1, h2⟩ := hp
            subst h1
            omega
          · rw [if_neg hstop] at hp
            exact decodeFlags_len_le data n fuel (by omega) hp
        · rw [if_neg hib] at hp
          exact absurd hp (by simp)
      · rw [if_neg hd] at hp
        have hpl := pushRepeat_length (data.getD i 0) n 1 acc h
        by_cases hstop : n ≤ (pushRepeat (data.getD i 0) n 1 acc).length
        · rw [if_pos hstop] at hp
          simp only [Option.some.injEq, Prod.mk.injEq] at hp
          obtain ⟨h1, h2⟩ := hp
          subst h1
          omega
        · rw [if_neg hstop] at hp
          exact decodeFlags_len_le data n fuel (by omega) hp
    · rw [if_neg hi] at hp
      simp only [Option.some.injEq, Prod.mk.injEq] at hp
      obtain ⟨h1, h2⟩ := hp
      subst h1
      omega

theorem decodeFlags_supply (data : List Nat) (n : Nat) (hn : 1 ≤ n) :
    ∀ (fuel : Nat) {i : Nat} {acc res : List GlyphPoint} {j t : Nat},
      flagSupply data fuel i = some t →
      decodeFlags data n fuel i acc = some (res, j) →
      acc.length < n → n ≤ acc.length + t → res.length = n
  | 0, i, acc, res, j, t, hs, hp, hacc, ht => by
    unfold flagSupply at hs
    unfold decodeFlags at hp
    split at hs
    · exact absurd hs (by simp)
    next hi =>
      rw [if_neg hi] at hp
      simp only [Option.some.injEq, Prod.mk.injEq] at hp hs
      obtain ⟨h1, h2⟩ := hp
      subst h1
      omega
  | fuel + 1, i, acc, res, j, t, hs, hp, hacc, ht => by
    have hmax : max n 1 = n := Nat.max_eq_left hn
    simp only [flagSupply] at hs
    simp only [decodeFlags] at hp
    by_cases hi : i < data.length
    · rw [if_pos hi] at hs hp
      by_cases hd : data.getD i 0 &&& 8 ≠ 0
      · rw [if_pos hd] at hs hp
        by_cases hib : i + 1 < data.length
        · rw [if_pos hib] at hs hp
          obtain ⟨t2, hs2, hteq⟩ := Option.map_eq_some'.mp hs
          have hpl := pushRepeat_length (data.getD i 0) n ((data.getD (i+1) 0 + 1) % 256) acc
            (by omega)
          rw [hmax] at hpl
          by_cases hstop :
              n ≤ (pushRepeat (data.getD i 0) n ((data.getD (i + 1) 0 + 1) % 256) acc).length
          · rw [if_pos hstop] at hp
            simp only [Option.some.injEq, Prod.mk.injEq] at hp
            obtain ⟨h1, h2⟩ := hp
            subst h1
            omega
          · rw [if_neg hstop] at hp
            exact decodeFlags_supply data n hn fuel hs2 hp (by omega) (by omega)
        · rw [if_neg hib] at hs
          exact absurd hs (by simp)
      · rw [if_neg hd] at hs hp
        obtain ⟨t2, hs2, hteq⟩ := Option.map_eq_some'.mp hs
        have hpl := pushRepeat_length (data.getD i 0) n 1 acc (by omega)
        rw [hmax] at hpl
        by_cases hstop : n ≤ (pushRepeat (data.getD i 0) n 1 acc).length
        · rw [if_pos hstop] at hp
          simp only [Option.some.injEq, Prod.mk.injEq] at hp
          obtain ⟨h1, h2⟩ := hp
          subst h1
          omega
        · rw [if_neg hstop] at hp
          exact decodeFlags_supply data n hn fuel hs2 hp (by omega) (by omega)
    · rw [if_neg hi] at hs hp
      simp only [Option.some.injEq, Prod.mk.injEq] at hp hs
      obtain ⟨h1, h2⟩ := hp
      subst h1
      omega

theorem getLastD_irrel : ∀ (l : List Nat) (a b : Nat), l ≠ [] → l.getLastD a = l.getLastD b
  | [], _, _, h => absurd rfl h
  | [_], _, _, _ => rfl
  | x :: y :: tl, a, b, _ => by
    have h1 : (x :: y :: tl).getLastD a = (y :: tl).getLastD x := by simp [List.getLastD]
    have h2 : (x :: y :: tl).getLastD b = (y :: tl).getLastD x := by simp [List.getLastD]
    rw [h1, h2]

theorem foldr_max_of_last : ∀ (l : List Nat), l ≠ [] →
    (∀ e ∈ l, e ≤ l.getLastD 0) → List.foldr max 0 l = l.getLastD 0
  | [], h, _ => absurd rfl h
  | [x], _, _ => by simp [List.getLastD]
  | x :: y :: tl, _, h => by
    have hcons : (x :: y :: tl).getLastD 0 = (y :: tl).getLastD 0 := by
      have h1 : (x :: y :: tl).getLastD 0 = (y :: tl).getLastD x := by simp [List.getLastD]
      rw [h1, getLastD_irrel (y :: tl) x 0 (by simp)]
    have htail : ∀ e ∈ y :: tl, e ≤ (y :: tl).getLastD 0 := by
      intro e he
      have := h e (by simp [he])
      rwa [hcons] at this
    have ih := foldr_max_of_last (y :: tl) (by simp) htail
    have hx : x ≤ (y :: tl).getLastD 0 := by
      have := h x (by simp)
      rwa [hcons] at this
    simp only [List.foldr_cons] at ih ⊢
    rw [ih, hcons]
    omega

/-- C1 (amended): for every successfully parsed Simple glyph, the decoded
point list has at most `1 + last(end_points_of_contours)` entries (the
source sizes the list from the LAST stored end-point index, not the
maximum); and it has exactly `1 + max(end_points_of_contours)` entries
provided the flag stream supplies at least that many point records, the
last end-point index is below 0xFFFF (so the `u16` increment does not
wrap) and the end-point indices are non-decreasing (so last = max), which
is the well-formed-font case. -/
theorem C1_simple_point_count (s : List Nat) (pos np glen nc : Nat) (xm ym xM yM : Int)
    (epoc instr : List Nat) (pts : List GlyphPoint) (pos2 : Nat)
    (hp : glyphFromBinary s pos np glen =
      some (GlyphDescription.simple nc xm ym xM yM epoc instr pts, pos2)) :
    pts.length ≤ epoc.getLastD 0 + 1 ∧
    (∀ t, epoc.getLastD 0 ≤ 65534 →
      flagSupply ((s.drop (pos + 12 + 2 * nc + instr.length)).take glen) (glen + 1) 0 = some t →
      epoc.getLastD 0 + 1 ≤ t →
      (∀ e ∈ epoc, e ≤ epoc.getLastD 0) →
      pts.length = 1 + List.foldr max 0 epoc) := by
  unfold glyphFromBinary at hp
  split at hp
  · exact absurd hp (by simp)
  next hglen =>
  split at hp
  · exact absurd hp (by simp)
  next ncv p1 h1 =>
  split at hp
  · exact absurd hp (by simp)
  next xminv p2 h2 =>
  split at hp
  · exact absurd hp (by simp)
  next yminv p3 h3 =>
  split at hp
  · exact absurd hp (by simp)
  next xmaxv p4 h4 =>
  split at hp
  · exact absurd hp (by simp)
  next ymaxv p5 h5 =>
  split at hp
  case isTrue hpos =>
    split at hp
    · exact absurd hp (by simp)
    next epocv p6 h6 =>
    split at hp
    · exact absurd hp (by simp)
    next ninstrv p7 h7 =>
    split at hp
    · exact absurd hp (by simp)
    next instrv p8 h8 =>
    split at hp
    · exact absurd hp (by simp)
    next datav p9 h9 =>
    split at hp
    · exact absurd hp (by simp)
    next pts0 i0 h10 =>
    split at hp
    case isFalse => exact absurd hp (by simp)
    case isTrue hassert =>
    split at hp
    · exact absurd hp (by simp)
    next pts1 i1 h12 =>
    split at hp
    · exact absurd hp (by simp)
    next pts2 i2 h13 =>
    simp only [Option.some.injEq, Prod.mk.injEq, GlyphDescription.simple.injEq] at hp
    obtain ⟨⟨enc, exm, eym, exM, eyM, eep, ein, ept⟩, epos⟩ := hp
    subst enc; subst exm; subst eym; subst exM; subst eyM
    subst eep; subst ein; subst ept; subst epos
    have hl13 := loadCoords_length h13
    have hl12 := loadCoords_length h12
    have hle := decodeFlags_len_le datav ((epocv.getLastD 0 + 1) % 65536)
      (datav.length + 1) (by simp only [List.length_nil]; omega) h10
    have hmodle : (epocv.getLastD 0 + 1) % 65536 ≤ epocv.getLastD 0 + 1 := Nat.mod_le _ _
    constructor
    · omega
    · intro t hlast hsup ht hsorted
      have hn : (epocv.getLastD 0 + 1) % 65536 = epocv.getLastD 0 + 1 :=
        Nat.mod_eq_of_lt (by omega)
      obtain ⟨hdata, hp9, hbound, hdlen⟩ := readBytes_eq h9
      obtain ⟨hinstr, hp8, hibound, hilen⟩ := readBytes_eq h8
      have hp1 := readI16_eq h1
      have hp2 := readI16_eq h2
      have hp3 := readI16_eq h3
      have hp4 := readI16_eq h4
      have hp5 := readI16_eq h5
      obtain ⟨hp6, heplen⟩ := readU16s_eq h6
      have hp7 := readU16_eq h7
      have hslice : pos + 12 + 2 * ncv.toNat + instrv.length = p8 := by omega
      rw [hslice, ← hdata, ← hdlen] at hsup
      have hsupply := decodeFlags_supply datav ((epocv.getLastD 0 + 1) % 65536)
        (by omega) (datav.length + 1) hsup h10 (by simp only [List.length_nil]; omega)
        (by simp only [List.length_nil]; omega)
      have hfold : List.foldr max 0 epocv = epocv.getLastD 0 := by
        apply foldr_max_of_last
        · have : 0 < epocv.length := by omega
          exact List.ne_nil_of_length_pos this
        · exact hsorted
      omega
  case isFalse hneg =>
    exfalso
    split at hp
    · split at hp
      · exact absurd hp (by simp)
      next comps hasInstr p6 hc =>
        split at hp
        · split at hp
          · exact absurd hp (by simp)
          next ni p7 hni =>
            split at hp
            · exact absurd hp (by simp)
            next ib p8 hib => exact absurd hp (by simp)
        · exact absurd hp (by simp)
    · exact absurd hp (by simp)

/-- C1 counterexample: a Simple glyph whose contour end-point indices are
`[5, 3]` parses successfully with 4 decoded points (the source sizes the
list from the last index: `3 + 1 = 4`), yet the claim demands
`1 + max(end_points_of_contours) = 1 + 5 = 6`. -/
theorem C1_point_count_counterexample :
    ((glyphFromBinary c1stream 0 0 16).map fun r =>
      (simpleEpoc r.1, (simplePoints r.1).length)) = some ([5, 3], 4) ∧
    (4 : Nat) ≠ 1 + List.foldr max 0 [5, 3] := by
  constructor
  · decide
  · decide

/-- C1 witness: a well-formed one-contour glyph with end-point index 3 and
ample flag data decodes exactly `4 = 1 + max` points; instantiates
`C1_simple_point_count` with every hypothesis discharged concretely. -/
theorem C1_simple_point_count_witness :
    c1goodPts.length ≤ ([3] : List Nat).getLastD 0 + 1 ∧
    c1goodPts.length = 1 + List.foldr max 0 [3] := by
  have h := C1_simple_point_count c1good 0 0 16 1 0 0 0 0 [3] [] c1goodPts 30 (by decide)
  refine ⟨h.1, h.2 16 (by decide) (by decide) (by decide) ?_⟩
  intro e he
  simp at he
  simp [he, List.getLastD]

theorem wrapI32_eq_self {z : Int} (h1 : -2147483648 ≤ z) (h2 : z < 2147483648) :
    wrapI32 z = z := by
  unfold wrapI32
  have h : (z + 2147483648) % 4294967296 = z + 2147483648 :=
    Int.emod_eq_of_lt (by omega) (by omega)
  omega

/-- C2: each decoded Simple-glyph coordinate is a running total: a short
coordinate adds the byte when the same-or-positive bit is set and
subtracts it when clear; a long coordinate (short clear, same clear) adds
the signed big-endian 16-bit delta; and with short clear and same set no
bytes are consumed and the previous total is repeated.  The bounds
hypotheses are the conditions under which the source's release-mode
wrapping add and its `assert!(last.abs() < 30000)` succeed. -/
theorem C2_coordinate_delta_cases (data : List Nat) (i : Nat) (last : Int) :
    (i < data.length → -2147483648 ≤ last + data.getD i 0 →
      last + (data.getD i 0 : Int) < 2147483648 →
      loadVec data i last true true = some (last + data.getD i 0, i + 1)) ∧
    (i < data.length → -2147483648 ≤ last - data.getD i 0 →
      last - (data.getD i 0 : Int) < 2147483648 →
      loadVec data i last true false = some (last - data.getD i 0, i + 1)) ∧
    (i + 1 < data.length →
      |last + toI16 (data.getD i 0) (data.getD (i + 1) 0)| < 30000 →
      loadVec data i last false false =
        some (last + toI16 (data.getD i 0) (data.getD (i + 1) 0), i + 2)) ∧
    loadVec data i last false true = some (last, i) := by
  refine ⟨?_, ?_, ?_, ?_⟩
  · intro hi hlo hhi
    simp only [loadVec, if_pos rfl, eq_self_iff_true, if_true, if_pos hi, mul_one,
      wrapI32_eq_self hlo hhi]
  · intro hi hlo hhi
    have h2 : last + (data.getD i 0 : Int) * (-1) = last - data.getD i 0 := by ring
    simp only [loadVec, if_pos rfl, eq_self_iff_true, if_true, if_pos hi, Bool.false_eq_true,
      if_false, h2, wrapI32_eq_self hlo hhi]
  · intro hi habs
    obtain ⟨hl, hh⟩ := abs_lt.mp habs
    have hw : wrapI32 (last + toI16 (data.getD i 0) (data.getD (i + 1) 0)) =
        last + toI16 (data.getD i 0) (data.getD (i + 1) 0) :=
      wrapI32_eq_self (by omega) (by omega)
    simp only [loadVec, Bool.false_eq_true, if_false, eq_self_iff_true, if_true, if_pos hi, hw,
      if_pos habs]
  · simp [loadVec]

/-- C2 witness: the four delta cases at the concrete stream `[5,255,254]`
and running total 10. -/
theorem C2_coordinate_delta_witness :
    loadVec [5, 255, 254] 0 10 true true = some (15, 1) ∧
    loadVec [5, 255, 254] 0 10 true false = some (5, 1) ∧
    loadVec [5, 255, 254] 0 10 false false = some (1545, 2) ∧
    loadVec [5, 255, 254] 0 10 false true = some (10, 0) := by
  have h := C2_coordinate_delta_cases [5, 255, 254] 0 10
  refine ⟨?_, ?_, ?_, h.2.2.2⟩
  · have h1 := h.1 (by decide) (by norm_num) (by norm_num)
    simpa using h1
  · have h2 := h.2.1 (by decide) (by norm_num) (by norm_num)
    simpa using h2
  · have h3 := h.2.2.1 (by decide) (by norm_num [toI16])
    simpa [toI16] using h3

/-- C3 counterexample: with file order cmap, head, maxp, loca, glyf the
constructed directory is maxp, cmap, loca, head, glyf — FontHeader is
processed after LocationIndex, refuting "regardless of the order of
directory entries ... Header before Location". -/
theorem C3_parse_order_counterexample :
    orderTags [cmapTag, headTag, maxpTag, locaTag, glyfTag] =
      some [maxpTag, cmapTag, locaTag, headTag, glyfTag] ∧
    ¬ ([maxpTag, cmapTag, locaTag, headTag, glyfTag].indexOf headTag <
        [maxpTag, cmapTag, locaTag, headTag, glyfTag].indexOf locaTag) := by
  decide

theorem orderTagsAux_nonspecial :
    ∀ (xs : List Nat) (acc : List Nat) (ys : List Nat),
      (∀ t ∈ xs, notSpecial t) →
      orderTagsAux acc (xs ++ ys) = orderTagsAux (acc ++ xs) ys
  | [], acc, ys, _ => by simp [orderTagsAux]
  | x :: xs, acc, ys, h => by
    have hx := h x (by simp)
    obtain ⟨h1, h2, h3⟩ := hx
    simp only [List.cons_append, orderTagsAux, if_neg h1, if_neg h2, if_neg h3]
    rw [show xs.append ys = xs ++ ys from rfl,
      orderTagsAux_nonspecial xs (acc ++ [x]) ys (fun t ht => h t (by simp [ht]))]
    simp

/-- C3 (amended): when the directory lists head, loca and maxp in that
relative file order (as the sfnt format's ascending-tag ordering
guarantees), with glyf and at least one other entry before head and glyf
not the very first entry, the processing order is MaxProfile first, then
the first other table, then FontHeader, then LocationIndex, then the rest;
in particular maxp is parsed first, head before loca, and loca before
glyf.  The claim's "then every remaining table after those three" is false
even here: the directory's first non-special entry lands between maxp and
head. -/
theorem C3_parse_order (a0 : Nat) (A1 B C D : List Nat)
    (hA : ∀ t ∈ a0 :: A1, notSpecial t)
    (hB : ∀ t ∈ B, notSpecial t)
    (hC : ∀ t ∈ C, notSpecial t)
    (hD : ∀ t ∈ D, notSpecial t)
    (hglyf : glyfTag ∈ A1) (ha0 : a0 ≠ glyfTag) :
    orderTags ((a0 :: A1) ++ headTag :: (B ++ locaTag :: (C ++ maxpTag :: D))) =
      some (maxpTag :: a0 :: headTag :: locaTag :: (A1 ++ B ++ C ++ D)) ∧
    (maxpTag :: a0 :: headTag :: locaTag :: (A1 ++ B ++ C ++ D)).indexOf maxpTag = 0 ∧
    (maxpTag :: a0 :: headTag :: locaTag :: (A1 ++ B ++ C ++ D)).indexOf headTag <
      (maxpTag :: a0 :: headTag :: locaTag :: (A1 ++ B ++ C ++ D)).indexOf locaTag ∧
    (maxpTag :: a0 :: headTag :: locaTag :: (A1 ++ B ++ C ++ D)).indexOf locaTag <
      (maxpTag :: a0 :: headTag :: locaTag :: (A1 ++ B ++ C ++ D)).indexOf glyfTag := by
  obtain ⟨ha1, ha2, ha3⟩ := hA a0 (by simp)
  refine ⟨?_, ?_, ?_, ?_⟩
  · unfold orderTags
    rw [orderTagsAux_nonspecial (a0 :: A1) [] _ hA]
    simp only [List.nil_append]
    show orderTagsAux (a0 :: A1) (headTag :: (B ++ locaTag :: (C ++ maxpTag :: D))) = _
    rw [orderTagsAux]
    rw [if_neg (by decide : headTag ≠ maxpTag), if_pos rfl]
    unfold insertAt
    rw [if_pos (by simp)]
    simp only [List.insertIdx_succ_cons, List.insertIdx_zero]
    rw [orderTagsAux_nonspecial B (a0 :: headTag :: A1) _ hB]
    show orderTagsAux ((a0 :: headTag :: A1) ++ B) (locaTag :: (C ++ maxpTag :: D)) = _
    rw [orderTagsAux]
    rw [if_neg (by decide : locaTag ≠ maxpTag), if_neg (by decide : locaTag ≠ headTag),
      if_pos rfl]
    unfold insertAt
    rw [if_pos (by simp)]
    simp only [List.cons_append, List.insertIdx_succ_cons, List.insertIdx_zero]
    rw [orderTagsAux_nonspecial C (a0 :: headTag :: locaTag :: (A1 ++ B)) _ hC]
    show orderTagsAux ((a0 :: headTag :: locaTag :: (A1 ++ B)) ++ C) (maxpTag :: D) = _
    rw [orderTagsAux]
    rw [if_pos rfl]
    unfold insertAt
    rw [if_pos (by simp)]
    simp only [List.insertIdx_zero]
    rw [show (D : List Nat) = D ++ [] by simp,
      orderTagsAux_nonspecial D (maxpTag :: ((a0 :: headTag :: locaTag :: (A1 ++ B)) ++ C)) [] hD]
    rw [orderTagsAux]
    simp [List.append_assoc]
  · simp [List.indexOf_cons_self]
  · rw [List.indexOf_cons_ne _ (by decide : maxpTag ≠ headTag),
      List.indexOf_cons_ne _ (ha2 : a0 ≠ headTag),
      List.indexOf_cons_self,
      List.indexOf_cons_ne _ (by decide : maxpTag ≠ locaTag),
      List.indexOf_cons_ne _ (ha3 : a0 ≠ locaTag),
      List.indexOf_cons_ne _ (by decide : headTag ≠ locaTag),
      List.indexOf_cons_self]
    omega
  · rw [List.indexOf_cons_ne _ (by decide : maxpTag ≠ locaTag),
      List.indexOf_cons_ne _ (ha3 : a0 ≠ locaTag),
      List.indexOf_cons_ne _ (by decide : headTag ≠ locaTag),
      List.indexOf_cons_self,
      List.indexOf_cons_ne _ (by decide : maxpTag ≠ glyfTag),
      List.indexOf_cons_ne _ ha0,
      List.indexOf_cons_ne _ (by decide : headTag ≠ glyfTag),
      List.indexOf_cons_ne _ (by decide : locaTag ≠ glyfTag)]
    omega

/-- C3 witness: the standard alphabetical directory cmap, cvt, glyf, head,
hhea, loca, maxp, prep is processed as maxp, cmap, head, loca, cvt, glyf,
hhea, prep, satisfying all three dependency orderings. -/
theorem C3_parse_order_witness :
    orderTags [cmapTag, cvtTag, glyfTag, headTag, hheaTag, locaTag, maxpTag, prepTag] =
      some [maxpTag, cmapTag, headTag, locaTag, cvtTag, glyfTag, hheaTag, prepTag] ∧
    [maxpTag, cmapTag, headTag, locaTag, cvtTag, glyfTag, hheaTag, prepTag].indexOf maxpTag = 0 ∧
    [maxpTag, cmapTag, headTag, locaTag, cvtTag, glyfTag, hheaTag, prepTag].indexOf headTag <
      [maxpTag, cmapTag, headTag, locaTag, cvtTag, glyfTag, hheaTag, prepTag].indexOf locaTag ∧
    [maxpTag, cmapTag, headTag, locaTag, cvtTag, glyfTag, hheaTag, prepTag].indexOf locaTag <
      [maxpTag, cmapTag, headTag, locaTag, cvtTag, glyfTag, hheaTag, prepTag].indexOf glyfTag := by
  have h := C3_parse_order cmapTag [cvtTag, glyfTag] [hheaTag] [] [prepTag]
    (by decide) (by decide) (by decide) (by decide) (by decide) (by decide)
  simpa using h

/-- C9 counterexample: on the claim's own contour the Assembler emits only
the closing `Line(2, 0)` — no midpoint is synthesized and no `Quad` is
emitted, because the two off-curve points lead the contour and the
assembler skips leading off-curve points without wrapping back to them. -/
theorem C9_leading_offcurve_counterexample :
    fromTruetypeWithPoints c9glyph c9points =
      some ⟨[Curve.line 2 0], c9points⟩ := by
  decide

/-- Corroboration (not itself a claim): prepending an on-curve point so the
off-curve pair is reached by the iteration, the full assembler emits
`Quad(0,(0,0)@1,(5,0)@4)` then `Quad((5,0)@4,(10,0)@2,(10,10)@3)` with the
synthesized midpoint `(5,0)` appended, plus the source's degenerate
`Line(3,3)` artifact and the closing `Line(3,0)`. -/
theorem assembler_midpoint_pipeline :
    fromTruetypeWithPoints c9glyph4 c9points4 =
      some ⟨[Curve.quad 0 1 4, Curve.quad 4 2 3, Curve.line 3 3, Curve.line 3 0],
        c9points4 ++ [⟨5, 0⟩]⟩ := by
  have h1 : fromTruetypeWithPoints c9glyph4 c9points4 =
      some ⟨[Curve.quad 0 1 4, Curve.quad 4 2 3, Curve.line 3 3, Curve.line 3 0],
        c9points4 ++ [⟨(0 + 10) / 2, (0 + 0) / 2⟩]⟩ := rfl
  rw [h1]
  norm_num

/-- C9 (amended): whenever the contour iteration reaches two consecutive
off-curve points (at `wrap i` and `wrap (i+1)`, the latter on-curve
closing the pair), the Assembler appends the synthesized on-curve midpoint
(the arithmetic mean of the previous control point `a` and the off-curve
point `b`) to the point list and emits `Quad(last_point, ia, midpoint)`
followed by `Quad(midpoint, ib, ic)`, continuing from the midpoint.  The
claim's own instance is false because leading off-curve points are skipped
(see the counterexample); this is the behaviour for pairs after the first
on-curve point. -/
theorem C9_offcurve_midpoint (spoints : List GlyphPoint) (le ep fuel i ia lastPoint : Nat)
    (a b : PointQ) (st : AsmState) (sib sic : GlyphPoint) (c : PointQ)
    (hib : spoints.get? (wrap i le ep) = some sib)
    (hb : st.points.get? (wrap i le ep) = some b)
    (hoff : sib.on_curve = false)
    (hic : spoints.get? (wrap (i + 1) le ep) = some sic)
    (hc : (st.points ++ [(⟨(a.x + b.x) / 2, (a.y + b.y) / 2⟩ : PointQ)]).get?
      (wrap (i + 1) le ep) = some c)
    (hon : sic.on_curve = true) :
    offLoop spoints le ep (fuel + 2) i ia a lastPoint st =
      some (⟨st.curves ++ [Curve.quad lastPoint ia st.points.length,
                Curve.quad st.points.length (wrap i le ep) (wrap (i + 1) le ep)],
             st.points ++ [⟨(a.x + b.x) / 2, (a.y + b.y) / 2⟩]⟩,
            i + 1, wrap (i + 1) le ep) := by
  simp only [offLoop]
  rw [hib, hb]
  simp only [hoff, Bool.false_eq_true, if_false, hic, hc, hon, if_true]
  simp [List.append_assoc]

/-- C9 witness: the off-curve pair (0,0), (10,0) closed by (10,10) inside
the four-point contour; the midpoint (5,0) is appended at index 4 and the
two `Quad`s are emitted. -/
theorem C9_offcurve_midpoint_witness :
    offLoop c9spoints4 0 4 2 2 1 ⟨0, 0⟩ 0 ⟨[], c9points4⟩ =
      some (⟨[Curve.quad 0 1 4, Curve.quad 4 2 3], c9points4 ++ [⟨5, 0⟩]⟩, 3, 3) := by
  have h := C9_offcurve_midpoint c9spoints4 0 4 0 2 1 0 ⟨0, 0⟩ ⟨10, 0⟩ ⟨[], c9points4⟩
    ⟨false, 10, 0, 0⟩ ⟨true, 10, 10, 0⟩ ⟨10, 10⟩ (by decide) (by decide) (by decide)
    (by decide) (by decide) (by decide)
  norm_num [wrap, c9points4] at h
  simpa [c9points4] using h

/-- C4: executing the claimed program IF; ELSE; PUSHB[1] 42; EIF with 0 on
top of the stack does NOT leave 42 on the stack: the source's IF-skip loop
has the contradictory condition `!= ELSE || != EIF`, which no byte
falsifies, so the scan runs past the end of the program and panics (for
any amount of fuel — the crash happens on the very first step). -/
theorem C4_if_zero_crashes (fuel : Nat) :
    interpret [0x58, 0x1b, 0xb0, 0x2a, 0x59] (fuel + 1) (initMachine [0]) =
      Except.error StepFail.crash := by
  have hs : stepOnce [0x58, 0x1b, 0xb0, 0x2a, 0x59] (initMachine [0]) =
      Except.error StepFail.crash := by decide
  rw [interpret, if_pos (by decide), hs]

/-- C5: executing PUSHW[1] with operand bytes 0xFF 0xFE (and a trailing
pad byte so the loop's one-past read stays in bounds) pushes TWO values,
not one, and both are 0 (the `sign_extend` stub), not the sign-extended
0xFFFFFFFE the claim requires. -/
theorem C5_pushw_two_zeros :
    resStack (interpret [0xb8, 0xff, 0xfe, 0x00] 6 (initMachine [])) = some [0, 0] ∧
    some [0, 0] ≠ some [4294967294] := by
  constructor
  · decide
  · decide

/-- C6: the claimed program PUSHB[3] 7 8 9; ADD; ADD leaves 70080 on top,
not 24: `pop_f26dot6` converts each popped word with `F26d6::from(i32)`
(a `<< 6`), so the first ADD computes (9<<6)+(8<<6) = 1088 and the second
(1088<<6)+(7<<6) = 70080.  The push of 7, 8, 9 gives depth 3 and the two
ADDs end at depth 1, so the depth part of the claim (a decrease of 2)
does hold. -/
theorem C6_add_result :
    resStack (interpret [0xb2, 7, 8, 9, 0x60, 0x60] 8 (initMachine [])) = some [70080] ∧
    resStack (interpret [0xb2, 7, 8, 9] 4 (initMachine [])) = some [9, 8, 7] ∧
    (70080 : Nat) ≠ 24 ∧ (3 : Nat) - 1 = 2 := by
  refine ⟨by decide, by decide, by decide, by decide⟩

/-- C8 counterexample: DUP (0x20) on an empty stack evaluates
`self.stack[self.stack.len() - 1]`, an index panic (crash), not a returned
`StackUnderflow(pc)`. -/
theorem C8_dup_crash_counterexample :
    stepOnce [0x20] (initMachine []) = Except.error StepFail.crash ∧
    (Except.error StepFail.crash : Except StepFail Machine) ≠
      Except.error (StepFail.err (VMErr.stackUnderflow 0)) := by
  exact ⟨by decide, by decide⟩

/-- Any opcode without an arm in the dispatch returns
`InvalidInstruction(pc, opcode)`. -/
theorem execOp_undefined (op : Nat) (prog : List Nat) (m : Machine)
    (h : definedOp op = false) :
    execOp op prog m = Except.error (StepFail.err (VMErr.invalidInstruction m.pc op)) := by
  simp [execOp, h]

/-- C8 (amended): every opcode that consumes operands through `pop`
returns `StackUnderflow` carrying the current program counter when the
stack is empty, and every undefined opcode byte returns
`InvalidInstruction` carrying the program counter and the byte — both as
returned values (`Result::Err`), so the caller and the immutable font
model are unaffected.  (DUP, SWAP and ROLL index the stack directly
instead and panic on an insufficient stack; see the counterexample.) -/
theorem C8_error_reporting :
    (∀ op ∈ popOps, stepOnce [op] (initMachine []) =
      Except.error (StepFail.err (VMErr.stackUnderflow 0))) ∧
    (∀ op prog m, definedOp op = false → prog.getD m.pc 0 = op →
      stepOnce prog m = Except.error (StepFail.err (VMErr.invalidInstruction m.pc op))) := by
  constructor
  · decide
  · intro op prog m h hop
    unfold stepOnce
    rw [hop, execOp_undefined op prog m h]
    rfl

/-- C8 witness: ADD on an empty stack underflows at pc 0; the undefined
byte 0x90 reports `InvalidInstruction(0, 0x90)`. -/
theorem C8_error_reporting_witness :
    stepOnce [0x60] (initMachine []) =
      Except.error (StepFail.err (VMErr.stackUnderflow 0)) ∧
    stepOnce [0x90] (initMachine []) =
      Except.error (StepFail.err (VMErr.invalidInstruction 0 0x90)) := by
  refine ⟨C8_error_reporting.1 0x60 (by decide), ?_⟩
  exact C8_error_reporting.2 0x90 [0x90] (initMachine []) (by decide) (by decide)

set_option maxHeartbeats 1600000 in
/-- Frame property of the C10 opcode arms: a successful arm changes only
the stack and the program counter. -/
theorem execKnown_frame (prog : List Nat) (m m3 : Machine) (op : Nat)
    (hop : op ∈ c10ops) (h : execKnown op prog m = Except.ok m3) :
    m3.points = m.points ∧ m3.original_points = m.original_points ∧ m3.state = m.state := by
  simp only [c10ops, List.mem_cons, List.not_mem_nil, or_false] at hop
  rcases hop with rfl|rfl|rfl|rfl|rfl|rfl|rfl|rfl|rfl|rfl|rfl|rfl|rfl|rfl|rfl|rfl|rfl|rfl|rfl|rfl|rfl|rfl|rfl|rfl|rfl|rfl|rfl|rfl|rfl|rfl|rfl|rfl|rfl|rfl|rfl|rfl|rfl|rfl|rfl|rfl|rfl|rfl|rfl
  all_goals (
    rcases hst : m.stack with _ | ⟨a, _ | ⟨b, _ | ⟨c, r⟩⟩⟩ <;>
      simp [execKnown, binF26, unaryF26, compareOp, underflow, hst] at h <;>
      (repeat' split at h) <;> (try simp_all) <;> (try (subst h) <;> simp))

/-- C10: a successful step of any arithmetic, comparison, logical,
stack-manipulation or immediate-push opcode leaves the current point
array, the original point array and every graphics-state field unchanged:
only the stack and the program counter move. -/
theorem C10_pure_opcodes_frame (prog : List Nat) (m m2 : Machine)
    (hop : prog.getD m.pc 0 ∈ c10ops)
    (h : stepOnce prog m = Except.ok m2) :
    m2.points = m.points ∧ m2.original_points = m.original_points ∧ m2.state = m.state := by
  unfold stepOnce execOp at h
  have hdef : definedOp (prog.getD m.pc 0) = true := by
    simp only [c10ops, List.mem_cons, List.not_mem_nil, or_false] at hop
    rcases hop with h1|h1|h1|h1|h1|h1|h1|h1|h1|h1|h1|h1|h1|h1|h1|h1|h1|h1|h1|h1|h1|h1|h1|h1|h1|h1|h1|h1|h1|h1|h1|h1|h1|h1|h1|h1|h1|h1|h1|h1|h1|h1|h1 <;> (rw [h1]; rfl)
  rw [hdef, if_pos rfl] at h
  rcases he : execKnown (prog.getD m.pc 0) prog m with e | m3
  · rw [he] at h
    exact absurd h (by simp [Except.map])
  · rw [he] at h
    simp [Except.map] at h
    obtain rfl := h.symm
    have hf := execKnown_frame prog m m3 (prog.getD m.pc 0) hop he
    simpa using hf

/-- C10 witness: ADD on the stack [1, 2] (a successful step) preserves
points, original points and the whole graphics state. -/
theorem C10_pure_opcodes_frame_witness :
    c10mach2.points = c10mach.points ∧ c10mach2.original_points = c10mach.original_points ∧
      c10mach2.state = c10mach.state := by
  exact C10_pure_opcodes_frame [0x60] c10mach c10mach2 (by decide) (by decide)
